import Mathlib

/-!
Shallow embedding of the publication-statistics aggregation engine of the
listic-api repository (`services/hal.py`, `services/dblp.py`), together with
theorems settling the specification's claims.

Modelling conventions:
* Python `None`-able values are `Option`; Python truthiness is modelled
  explicitly (`0`, `""`, `[]` and `None` are falsy).
* JSON fields that are sometimes a scalar string and sometimes a list of
  strings are modelled by `StrOrList`.
* `collections.Counter` is modelled as an association list in first-encounter
  key order; `Counter.most_common(n)` and `list.sort` are modelled by a stable
  insertion sort, matching CPython's stable sorting semantics.
* An HTTP fetch is an explicit `Except String` argument: `.ok` carries the
  parsed JSON payload, `.error e` stands for any exception raised while
  fetching or decoding (timeout, non-2xx status, malformed JSON), carrying
  the Python `str(e)` message.
* `str.lower` / `str.upper` are modelled on ASCII via `Char.toLower` /
  `Char.toUpper`.
-/

-- ## Python string primitives

def pyLower (s : String) : String := (s.toList.map Char.toLower).asString

def pyUpper (s : String) : String := (s.toList.map Char.toUpper).asString

/-- Accumulator pass behind `pyWords`: `acc` holds the current word reversed. -/
def pyWordsAux : List Char → List Char → List String
  | [], acc => if acc.isEmpty then [] else [acc.reverse.asString]
  | c :: t, acc =>
    if c.isWhitespace then
      if acc.isEmpty then pyWordsAux t [] else acc.reverse.asString :: pyWordsAux t []
    else pyWordsAux t (c :: acc)

/-- Python `s.split()` with no argument: split on whitespace runs, dropping
empty words. -/
def pyWords (s : String) : List String := pyWordsAux s.toList []

/-- Join a list of strings with a separator (Python `sep.join(ws)`). -/
def joinWith (sep : String) : List String → String
  | [] => ""
  | [w] => w
  | w :: t => w ++ sep ++ joinWith sep t

/-- Python `" ".join(s.split())`: collapse whitespace runs to single spaces and
trim the ends (used for `clean_name` in both services). -/
def pyCollapseWS (s : String) : String :=
  joinWith (" ") (pyWords s)

/-- Python `"".join(s.split()).lower()`: remove all whitespace, lowercase
(used for DBLP self-exclusion, `dblp.py` lines 42 and 58). -/
def stripAllLower (s : String) : String :=
  ((s.toList.filter (fun c => !c.isWhitespace)).map Char.toLower).asString

/-- Auxiliary for Python's substring test: is `needle` a prefix of `hay`? -/
def isPrefixL : List Char → List Char → Bool
  | [], _ => true
  | _ :: _, [] => false
  | a :: as, b :: bs => a == b && isPrefixL as bs

/-- Auxiliary: Python `needle in hay` on exploded strings. -/
def containsL (hay needle : List Char) : Bool :=
  isPrefixL needle hay ||
    (match hay with
     | [] => false
     | _ :: t => containsL t needle)

/-- Python `needle in hay` for strings. -/
def strContains (hay needle : String) : Bool :=
  containsL hay.toList needle.toList

/-- Python `s.replace(chr(34), chr(92) ++ chr(34))`: escape double quotes
(`hal.py` line 38). -/
def pyEscQuotes (s : String) : String :=
  (s.toList.foldr (fun c acc => if c == '"' then '\\' :: '"' :: acc else c :: acc) []).asString

/-- Python `s.isdigit()` restricted to ASCII digits. -/
def pyIsDigit (s : String) : Bool :=
  !(s == "") && s.toList.all Char.isDigit

/-- Numeric value of an ASCII digit string, Python `int(s)` for `s.isdigit()`. -/
def digitsToNat (s : String) : Nat :=
  s.toList.foldl (fun n c => n * 10 + (c.toNat - 48)) 0

-- ## Python truthiness

def truthyInt : Option Int → Bool
  | none => false
  | some n => !(n == 0)

def truthyStr : Option String → Bool
  | none => false
  | some s => !(s == "")

/-- A JSON field that is sometimes a bare string and sometimes a list of
strings (HAL `keyword_s` / `authFullName_s`, DBLP `type` / `venue`). -/
inductive StrOrList where
  | scalar (s : String)
  | strlist (l : List String)
deriving DecidableEq, Repr

/-- Python `[x] if isinstance(x, str) else x`, with `None`/absent giving `[]`. -/
def slToList : Option StrOrList → List String
  | none => []
  | some (.scalar s) => [s]
  | some (.strlist l) => l

def truthySL : Option StrOrList → Bool
  | none => false
  | some (.scalar s) => !(s == "")
  | some (.strlist l) => !l.isEmpty

-- ## Counter and stable sorting

/-- Occurrence count of `a` in `l` (Python `Counter(l)[a]`). -/
def pyCount [DecidableEq α] (l : List α) (a : α) : Nat :=
  (l.filter (fun b => b == a)).length

/-- First-occurrence-ordered distinct elements of `l`, with explicit fuel so
the definition is structural (the fuel is always instantiated with
`l.length`, which suffices). -/
def pyKeysF [DecidableEq α] : Nat → List α → List α
  | _, [] => []
  | 0, _ :: _ => []
  | n + 1, a :: t => a :: pyKeysF n (t.filter (fun b => !(b == a)))

def pyKeys [DecidableEq α] (l : List α) : List α := pyKeysF l.length l

/-- Python `dict(Counter(l))`: insertion-ordered association list mapping each
distinct element to its count. -/
def pyCounter [DecidableEq α] (l : List α) : List (α × Nat) :=
  (pyKeys l).map (fun a => (a, pyCount l a))

/-- Stable insertion placing `a` after every `b` with `le b a`. -/
def pyInsert (le : α → α → Bool) (a : α) : List α → List α
  | [] => [a]
  | b :: t => if le b a then b :: pyInsert le a t else a :: b :: t

/-- Stable sort in the sense of CPython `list.sort` / `sorted`: elements that
compare equal keep their original relative order. -/
def pySort (le : α → α → Bool) (l : List α) : List α :=
  l.foldl (fun acc a => pyInsert le a acc) []

/-- Python `Counter(xs).most_common(n)`: count-descending, stable on ties. -/
def pyMostCommon [DecidableEq α] (n : Nat) (l : List α) : List (α × Nat) :=
  (pySort (fun x y => decide (y.2 ≤ x.2)) (pyCounter l)).take n

example : pyCounter ([3, 1, 3, 2, 1, 3] : List Int) = [(3, 3), (1, 2), (2, 1)] := by decide

example : pySort (fun a b : Int => decide (b ≤ a)) [1, 3, 2, 3] = [3, 3, 2, 1] := by decide

example : pyMostCommon 2 (["b", "a", "b", "a", "c"] : List String) = [("b", 2), ("a", 2)] := by decide

example : pyCollapseWS ("  John   Smith ") = "John Smith" := by decide

example : strContains ("laboratoire") ("orato") = true := by decide

example : stripAllLower ("John  Smith") = "johnsmith" := by decide

-- ## HAL service (`services/hal.py`)

/-- A HAL document as selected by the `fl` field list of `get_hal_stats`
(`hal.py` line 19); every field may be absent. -/
structure HalDoc where
  title_s : Option String
  producedDateY_i : Option Int
  docType_s : Option String
  keyword_s : Option StrOrList
  authFullName_s : Option StrOrList
  journalTitle_s : Option String
deriving DecidableEq, Repr

/-- Outgoing request parameters built by `get_hal_stats` (`hal.py` lines
21-42); `fq` is `none` when the code never assigns `params[chr(102)++chr(113)]`. -/
structure HalParams where
  q : String
  wt : String
  fl : String
  rows : Nat
  sort : String
  fq : Option String
deriving DecidableEq, Repr

/-- Python `start_year if start_year else chr(42)` inside the year filter
clause (`hal.py` lines 32-33): a falsy bound renders as `*`. -/
def yearBound (o : Option Int) : String :=
  if truthyInt o then toString (o.getD 0) else "*"

/-- Embedding of `hal.py` lines 13-42: the query, field list and filter
construction of `get_hal_stats`.  Note that in the source the assignment of
`params` with the joined filter string sits *inside* the `if keyword:` block,
so `fq` is only ever set when a truthy keyword is given. -/
def buildHalParams (name : String) (start_year end_year : Option Int)
    (keyword : Option String) : HalParams :=
  let filters : List String :=
    if truthyInt start_year || truthyInt end_year then
      ["producedDateY_i:[" ++ yearBound start_year ++ " TO " ++ yearBound end_year ++ "]"]
    else []
  let fq : Option String :=
    if truthyStr keyword then
      some (joinWith (" AND ")
        (filters ++ ["keyword_s:\"" ++ pyEscQuotes (keyword.getD "") ++ "\""]))
    else none
  ⟨"authFullName_t:\"" ++ pyCollapseWS name ++ "\"",
   "json",
   "title_s,producedDateY_i,docType_s,keyword_s,authFullName_s,journalTitle_s,conferenceTitle_s",
   500,
   "producedDateY_i desc",
   fq⟩

/-- Year part of the manual fallback filter (`hal.py` lines 58-60): the record
is dropped when a bound is truthy, the record year is truthy, and the year
lies strictly beyond that bound. -/
def halKeepYear (start_year end_year y : Option Int) : Bool :=
  !(truthyInt start_year && truthyInt y && decide (y.getD 0 < start_year.getD 0)) &&
  !(truthyInt end_year && truthyInt y && decide (end_year.getD 0 < y.getD 0))

/-- Keyword part of the manual fallback filter (`hal.py` lines 63-68): with a
truthy keyword, keep the record iff some entry of its (list-coerced)
`keyword_s` contains the search term case-insensitively. -/
def halKeepKw (keyword : Option String) (kws : Option StrOrList) : Bool :=
  if truthyStr keyword then
    (slToList kws).any (fun k => strContains (pyLower k) (pyLower (keyword.getD "")))
  else true

def halKeepDoc (start_year end_year : Option Int) (keyword : Option String)
    (d : HalDoc) : Bool :=
  halKeepYear start_year end_year d.producedDateY_i && halKeepKw keyword d.keyword_s

/-- The manual fallback filtering loop (`hal.py` lines 55-72). -/
def halFilter (start_year end_year : Option Int) (keyword : Option String)
    (docs : List HalDoc) : List HalDoc :=
  docs.filter (halKeepDoc start_year end_year keyword)

/-- Co-author extraction with self-exclusion (`hal.py` lines 85 and 103-109):
authors of each doc whose `authFullName_s` is truthy, dropping exactly the
names whose `lower()` equals `name.lower()` (the *raw* subject name; the
whitespace-cleaned `clean_name` is used only in the query). -/
def halCoAuthors (name : String) (docs : List HalDoc) : List String :=
  (docs.map (fun d =>
    if truthySL d.authFullName_s then
      (slToList d.authFullName_s).filter (fun a => !(pyLower a == pyLower name))
    else [])).flatten

/-- All keyword occurrences across docs (`hal.py` lines 96-101). -/
def halKeywords (docs : List HalDoc) : List String :=
  (docs.map (fun d => if truthySL d.keyword_s then slToList d.keyword_s else [])).flatten

/-- The statistics object built by `get_hal_stats` on a non-empty filtered doc
set (`hal.py` lines 124-134); the empty-set object at line 76 additionally has
a `count` entry, modelled by the `count` field being `some 0` there and `none`
here. -/
structure HalStats where
  found : Bool
  source : String
  count : Option Nat
  total_publications : Nat
  years_distribution : List (Int × Nat)
  types_distribution : List (String × Nat)
  top_keywords : List (String × Nat)
  top_collaborators : List (String × Nat)
  top_journals : List (String × Nat)
  recent_publications : List HalDoc
deriving DecidableEq, Repr

/-- Result of `get_hal_stats`: either the `except` branch's error dict
(`hal.py` line 138) or a statistics dict.  The error dict of this endpoint
always carries `source = some (chr(72)...)`; the `Option` in the source field
lets the four endpoints' error shapes be compared. -/
inductive HalResult where
  | err (error : String) (source : Option String)
  | ok (stats : HalStats)
deriving DecidableEq, Repr

/-- Embedding of `get_hal_stats` (`hal.py` lines 8-138).  The HTTP call and
JSON decoding are abstracted into the `fetch` argument: `.ok docs` is the
`response.docs` list of a successful call, `.error e` any raised exception. -/
def get_hal_stats (name : String) (start_year end_year : Option Int)
    (keyword : Option String) (fetch : Except String (List HalDoc)) : HalResult :=
  match fetch with
  | .error e => .err e (some ("HAL"))
  | .ok rawDocs =>
    let docs := halFilter start_year end_year keyword rawDocs
    if docs.isEmpty then
      .ok ⟨true, "HAL", some 0, 0, [], [], [], [], [], []⟩
    else
      let years := docs.filterMap (fun d =>
        if truthyInt d.producedDateY_i then d.producedDateY_i else none)
      let types := docs.filterMap (fun d =>
        if truthyStr d.docType_s then d.docType_s else none)
      let keywords := halKeywords docs
      let co_authors := halCoAuthors name docs
      let journals := docs.filterMap (fun d =>
        if truthyStr d.journalTitle_s then d.journalTitle_s else none)
      .ok ⟨true, "HAL", none,
           docs.length,
           pyCounter years,
           pyCounter types,
           pyMostCommon 20 keywords,
           pyMostCommon 10 co_authors,
           pyMostCommon 10 journals,
           docs.take 5⟩

-- ## HAL project lookup (`hal.py` lines 140-191)

structure ProjStats where
  found : Bool
  total_publications : Nat
  years_distribution : List (Int × Nat)
  top_authors : List (String × Nat)
  recent_publications : List HalDoc
deriving DecidableEq, Repr

/-- Result of `get_project_stats`; its `except` branch (`hal.py` line 191)
returns a dict with only an `error` entry — no `source` —, modelled by
`source = none`. -/
inductive ProjResult where
  | err (error : String) (source : Option String)
  | notFound (found : Bool) (count : Nat)
  | ok (stats : ProjStats)
deriving DecidableEq, Repr

/-- Embedding of `get_project_stats` (`hal.py` lines 140-191): no local
filtering, no self-exclusion; authors flattened over all docs. -/
def get_project_stats (fetch : Except String (List HalDoc)) : ProjResult :=
  match fetch with
  | .error e => .err e none
  | .ok docs =>
    if docs.isEmpty then
      .notFound false 0
    else
      let years := docs.filterMap (fun d =>
        if truthyInt d.producedDateY_i then d.producedDateY_i else none)
      let authors := (docs.map (fun d =>
        if truthySL d.authFullName_s then slToList d.authFullName_s else [])).flatten
      .ok ⟨true, docs.length, pyCounter years, pyMostCommon 10 authors, docs.take 5⟩

example :
    get_hal_stats ("X") (some 2020) none none
      (.ok [⟨none, some 2000, none, none, none, none⟩]) =
    .ok ⟨true, "HAL", some 0, 0, [], [], [], [], [], []⟩ := by decide

example : (buildHalParams ("X") (some 2020) (some 2021) none).fq = none := by decide

example :
    (buildHalParams ("X") (some 2020) (some 2021) (some ("ml"))).fq =
      some ("producedDateY_i:[2020 TO 2021] AND keyword_s:\"ml\"") := by decide

-- ## DBLP service (`services/dblp.py`)

/-- One entry of a DBLP author list: either a bare string or a structured
object that may expose a `text` field. -/
inductive JEntry where
  | jstr (s : String)
  | jobj (text : Option String)
deriving DecidableEq, Repr

/-- The value of `info.get(chr(97)...)['author']` before coercion: absent, a
bare string, a single structured object, or a list of entries. -/
inductive JAuthors where
  | missing
  | jstr (s : String)
  | jobj (text : Option String)
  | jlist (l : List JEntry)
deriving DecidableEq, Repr

/-- Coercion of the author field (`dblp.py` lines 49-51): a bare string is
wrapped, a single structured object is replaced by its `text` field (default
empty string), and a list is passed through unchanged. -/
def authorsToList : JAuthors → List JEntry
  | .missing => []
  | .jstr s => [.jstr s]
  | .jobj t => [.jstr (t.getD "")]
  | .jlist l => l

/-- A DBLP hit's `info` object.  The source's `year` is a decimal string; it
is modelled by its numeric value, with `none` standing for an absent or empty
string (so Python's `if year:` truthiness test becomes `isSome`, and
`int(year)` is the value itself; non-numeric year strings are outside the
model). -/
structure DblpHit where
  authors : JAuthors
  year : Option Int
  type_ : Option StrOrList
  venue : Option StrOrList
  title : Option String
  url : Option String
deriving DecidableEq, Repr

/-- The cleaned record built per hit (`dblp.py` lines 74-80). -/
structure DblpCleaned where
  title : Option String
  year : Option Int
  venue : Option String
  type_ : Option String
deriving DecidableEq, Repr

/-- Python repr of a string with single quotes and no escaping (enough for the
`str(tuple)` rendering below). -/
def pyReprStr (s : String) : String := "\x27" ++ s ++ "\x27"

/-- Python `str(tuple(l))` for a list of strings (used because `safe_value`
turns list-valued types into tuples before `str()` is applied). -/
def pyReprTuple : List String → String
  | [l] => "(" ++ pyReprStr l ++ ",)"
  | l => "(" ++ joinWith (", ") (l.map pyReprStr) ++ ")"

/-- Python `str(safe_value(v))` (`dblp.py` lines 38-40 and 83): a scalar
string passes through `str` unchanged, a list was converted to a tuple. -/
def pyStrSafeValue : StrOrList → String
  | .scalar s => s
  | .strlist l => pyReprTuple l

/-- Python `v if not isinstance(v, list) else v[0]` (`dblp.py` lines 77-78);
indexing an empty list raises, which propagates to the `except` clause. -/
def firstOfSL : Option StrOrList → Except String (Option String)
  | none => .ok none
  | some (.scalar s) => .ok (some s)
  | some (.strlist []) => .error "list index out of range"
  | some (.strlist (a :: _)) => .ok (some a)

/-- Building the cleaned record of one hit (`dblp.py` lines 74-80). -/
def cleanHit (h : DblpHit) : Except String DblpCleaned := do
  let venue ← firstOfSL h.venue
  let type_ ← firstOfSL h.type_
  .ok ⟨h.title, h.year, venue, type_⟩

/-- The self-exclusion test applied to one coerced author entry (`dblp.py`
lines 54-59): only truthy bare strings are considered, and a name is kept iff
its whitespace-stripped lowercase form differs from the subject's. -/
def dblpEntryCo (researcherLower : String) : JEntry → Option String
  | .jstr s => if !(s == "") && !(stripAllLower s == researcherLower) then some s else none
  | .jobj _ => none

/-- Co-author occurrences across all hits (`dblp.py` lines 42 and 53-59). -/
def dblpCoAuthors (name : String) (hits : List DblpHit) : List String :=
  (hits.map (fun h =>
    (authorsToList h.authors).filterMap (dblpEntryCo (stripAllLower name)))).flatten

/-- Sort key of the recent-publication sort (`dblp.py` line 88): the year when
truthy, else `0`. -/
def dblpSortKey (c : DblpCleaned) : Int := c.year.getD 0

/-- Comparator modelling `cleaned_hits.sort(key=..., reverse=True)`: stable,
year descending. -/
def dblpRecLe (a b : DblpCleaned) : Bool := decide (dblpSortKey b ≤ dblpSortKey a)

/-- The statistics dict built on a non-empty hit list (`dblp.py` lines
90-99). -/
structure DblpStats where
  found : Bool
  source : String
  total_publications : Nat
  years_distribution : List (Int × Nat)
  types_distribution : List (String × Nat)
  top_venues : List (String × Nat)
  top_collaborators : List (String × Nat)
  recent_publications : List DblpCleaned
deriving DecidableEq, Repr

/-- Result of `get_dblp_stats`: the `except` branch's error dict (`dblp.py`
line 103, which does carry a `source` entry), the zero-hit dict of line 27
(`found`, `source` and `count` entries only — no distributions), or the
statistics dict. -/
inductive DblpResult where
  | err (error : String) (source : Option String)
  | notFound (found : Bool) (source : String) (count : Nat)
  | ok (stats : DblpStats)
deriving DecidableEq, Repr

/-- Embedding of `get_dblp_stats` (`dblp.py` lines 6-103).  `fetch` abstracts
the HTTP call and JSON decoding; `.ok hits` is `result.hits.hit`.  There is no
local year/keyword filtering in this service.  An exception raised while
cleaning a hit (empty-list indexing) lands in the same `except` clause as a
fetch failure. -/
def get_dblp_stats (name : String) (fetch : Except String (List DblpHit)) : DblpResult :=
  match fetch with
  | .error e => .err e (some ("DBLP"))
  | .ok hits =>
    if hits.isEmpty then
      .notFound false "DBLP" 0
    else
      match hits.mapM cleanHit with
      | .error e => .err e (some ("DBLP"))
      | .ok cleaned =>
        let years := hits.filterMap (fun h => h.year)
        let types := (hits.filterMap (fun h =>
          if truthySL h.type_ then h.type_ else none)).map pyStrSafeValue
        let venue_counts := (hits.map (fun h =>
          if truthySL h.venue then slToList h.venue else [])).flatten
        let co_authors := dblpCoAuthors name hits
        .ok ⟨true, "DBLP",
             hits.length,
             pyCounter years,
             pyCounter types,
             pyMostCommon 10 venue_counts,
             pyMostCommon 10 co_authors,
             (pySort dblpRecLe cleaned).take 5⟩

example :
    get_dblp_stats ("Bob") (.ok [⟨.jlist [.jobj (some ("Alice"))], none, none, none, none, none⟩]) =
      .ok ⟨true, "DBLP", 1, [], [], [], [], [⟨none, none, none, none⟩]⟩ := by decide

example : get_dblp_stats ("Bob") (.ok []) = .notFound false "DBLP" 0 := by decide

example :
    get_dblp_stats ("Ann Lee") (.ok
      [⟨.jlist [.jstr ("ann  lee"), .jstr ("Carl Mo")], some 2020, none, none, none, none⟩]) =
      .ok ⟨true, "DBLP", 1, [(2020, 1)], [], [], [("Carl Mo", 1)],
        [⟨none, some 2020, none, none⟩]⟩ := by decide

-- ## LISTIC lab-wide facets (`hal.py` lines 192-270)

/-- A JSON value appearing in a flat facet list: facet names are strings,
facet counts are numbers. -/
inductive JVal where
  | str (s : String)
  | num (n : Int)
deriving DecidableEq, Repr

/-- Python `str(v)` on a facet-list element. -/
def pyStr : JVal → String
  | .str s => s
  | .num n => toString n

/-- One `{name, value}` record produced by `parse_facet`. -/
structure FacetPair where
  name : String
  value : JVal
deriving DecidableEq, Repr

/-- Embedding of `parse_facet` (`hal.py` lines 234-241): walk the flat list
two at a time; on an odd-length list the final `flat_list[i+1]` raises
`IndexError`, modelled as the `.error` case. -/
def parseFacet : List JVal → Except String (List FacetPair)
  | [] => .ok []
  | [_] => .error "list index out of range"
  | a :: b :: rest => (parseFacet rest).map (fun ps => ⟨pyStr a, b⟩ :: ps)

/-- Modelled from the spec's description of the facet translation: an
even-length flat alternating sequence becomes `{name, value}` pairs in
upstream order with the name stringified.  Used to state what `parse_facet`
computes on even-length input. -/
def specFacetPairs : List JVal → List FacetPair
  | a :: b :: rest => ⟨pyStr a, b⟩ :: specFacetPairs rest
  | _ => []

/-- The `facet_counts.facet_fields` block of a lab-wide response, plus
`response.numFound`; a missing facet field defaults to `[]` via `.get`. -/
structure ListicFetch where
  producedDateY_i : List JVal
  keyword_s : List JVal
  docType_s : List JVal
  authFullName_s : List JVal
  journalTitle_s : List JVal
  language_s : List JVal
  structName_s : List JVal
  numFound : Int
deriving DecidableEq, Repr

structure LabStats where
  years : List FacetPair
  keywords : List FacetPair
  types : List FacetPair
  authors : List FacetPair
  journals : List FacetPair
  languages : List FacetPair
  structures : List FacetPair
  total_docs : Int
deriving DecidableEq, Repr

/-- Result of `get_listic_stats`; its `except` branch (`hal.py` line 270)
returns a dict with only an `error` entry — no `source` —, modelled by
`source = none`. -/
inductive ListicResult where
  | err (error : String) (source : Option String)
  | ok (stats : LabStats)
deriving DecidableEq, Repr

/-- The structures post-filter predicate (`hal.py` line 252): keep an entry
iff its uppercased name contains neither the lab acronym nor the prefix of
its expanded name. -/
def structKeep (p : FacetPair) : Bool :=
  !(strContains (pyUpper p.name) ("LISTIC")) &&
  !(strContains (pyUpper p.name) ("LABORATOIRE D\x27INFORMATIQUE"))

/-- Sort key of the year-facet sort (`hal.py` line 255): `int(name)` when the
name is all digits, else `0`. -/
def facetYearKey (p : FacetPair) : Int :=
  if pyIsDigit p.name then (digitsToNat p.name : Int) else 0

/-- The body of `get_listic_stats` after a successful fetch (`hal.py` lines
231-266); any `parse_facet` `IndexError` propagates. -/
def listicBody (fd : ListicFetch) : Except String LabStats := do
  let years ← parseFacet fd.producedDateY_i
  let keywords ← parseFacet fd.keyword_s
  let types ← parseFacet fd.docType_s
  let authors ← parseFacet fd.authFullName_s
  let journals ← parseFacet fd.journalTitle_s
  let languages ← parseFacet fd.language_s
  let structures ← parseFacet fd.structName_s
  let structures := structures.filter structKeep
  let years := pySort (fun a b => decide (facetYearKey a ≤ facetYearKey b)) years
  .ok ⟨years, keywords, types, authors, journals, languages, structures, fd.numFound⟩

/-- Embedding of `get_listic_stats` (`hal.py` lines 192-270).  `fetch`
abstracts the HTTP call and JSON decoding; every exception — from the fetch
or from `parse_facet` — returns the sourceless error dict of line 270. -/
def get_listic_stats (fetch : Except String ListicFetch) : ListicResult :=
  match fetch with
  | .error e => .err e none
  | .ok fd =>
    match listicBody fd with
    | .error e => .err e none
    | .ok stats => .ok stats

example :
    get_listic_stats (.ok ⟨[.str ("2023"), .num 10, .str ("2022")], [], [], [], [], [], [], 3⟩) =
      .err ("list index out of range") none := by decide

example :
    get_listic_stats (.ok ⟨[.str ("2023"), .num 10, .str ("2022"), .num 5], [], [], [], [], [],
        [.str ("LISTIC"), .num 12, .str ("Laboratoire d\x27Informatique, Institut X"), .num 7,
         .str ("LIG"), .num 5], 3⟩) =
      .ok ⟨[⟨"2022", .num 5⟩, ⟨"2023", .num 10⟩], [], [], [], [], [],
        [⟨"LIG", .num 5⟩], 3⟩ := by decide

-- ## Auxiliary lemmas

theorem pyCount_cons [DecidableEq α] (c b : α) (t : List α) :
    pyCount (c :: t) b = (if c == b then 1 else 0) + pyCount t b := by
  simp only [pyCount, List.filter_cons]
  split <;> simp [Nat.add_comm]

theorem pyKeysF_subset [DecidableEq α] :
    ∀ (n : Nat) (l : List α) (b : α), b ∈ pyKeysF n l → b ∈ l := by
  intro n
  induction n with
  | zero =>
    intro l b hb
    cases l <;> simp [pyKeysF] at hb
  | succ n ih =>
    intro l b hb
    cases l with
    | nil => simp [pyKeysF] at hb
    | cons a t =>
      simp only [pyKeysF, List.mem_cons] at hb
      rcases hb with rfl | hb
      · exact List.mem_cons_self _ _
      · exact List.mem_cons_of_mem _ (List.mem_of_mem_filter (ih _ _ hb))

theorem pyCount_filter_ne [DecidableEq α] (t : List α) (a b : α) (h : ¬ b = a) :
    pyCount (t.filter (fun c => !(c == a))) b = pyCount t b := by
  induction t with
  | nil => simp [pyCount]
  | cons c t ih =>
    by_cases hc : c = a
    · subst hc
      simp only [List.filter_cons, beq_self_eq_true, Bool.not_true, if_neg]
      rw [pyCount_cons]
      have : (c == b) = false := by
        simp only [beq_eq_false_iff_ne, ne_eq]
        intro hcb
        exact h hcb.symm
      simp [this, ih]
    · have hca : (c == a) = false := by simp [hc]
      simp only [List.filter_cons, hca, Bool.not_false, if_pos]
      rw [pyCount_cons, pyCount_cons, ih]

theorem length_filter_split (p : α → Bool) (t : List α) :
    (t.filter p).length + (t.filter (fun c => !(p c))).length = t.length := by
  induction t with
  | nil => simp
  | cons c t ih =>
    by_cases hc : p c = true
    · simp [List.filter_cons, hc, ← ih]
      omega
    · simp only [Bool.not_eq_true] at hc
      simp [List.filter_cons, hc, ← ih]
      omega

theorem map_congr_mem (l : List α) (f g : α → β) (h : ∀ a ∈ l, f a = g a) :
    l.map f = l.map g := by
  induction l with
  | nil => rfl
  | cons a t ih =>
    simp only [List.map_cons, h a (List.mem_cons_self _ _)]
    rw [ih]
    intro b hb
    exact h b (List.mem_cons_of_mem _ hb)

theorem pyKeysF_count_sum [DecidableEq α] :
    ∀ (n : Nat) (l : List α), l.length ≤ n →
      ((pyKeysF n l).map (fun a => pyCount l a)).sum = l.length := by
  intro n
  induction n with
  | zero =>
    intro l hl
    have : l = [] := List.eq_nil_of_length_eq_zero (Nat.le_zero.mp hl)
    subst this
    simp [pyKeysF]
  | succ n ih =>
    intro l hl
    cases l with
    | nil => simp [pyKeysF]
    | cons a t =>
      have hta : (t.filter (fun b => !(b == a))).length ≤ n := by
        have h1 := List.length_filter_le (fun b => !(b == a)) t
        have h2 : t.length ≤ n := by simpa using Nat.succ_le_succ_iff.mp hl
        omega
      have hsum := ih (t.filter (fun b => !(b == a))) hta
      simp only [pyKeysF, List.map_cons, List.sum_cons]
      have hcongr : (pyKeysF n (t.filter (fun b => !(b == a)))).map
            (fun b => pyCount (a :: t) b) =
          (pyKeysF n (t.filter (fun b => !(b == a)))).map
            (fun b => pyCount (t.filter (fun c => !(c == a))) b) := by
        apply map_congr_mem
        intro b hb
        have hbmem := pyKeysF_subset _ _ _ hb
        have hbne : ¬ b = a := by
          have := List.of_mem_filter hbmem
          simpa using this
        rw [pyCount_cons]
        have : (a == b) = false := by
          simp only [beq_eq_false_iff_ne, ne_eq]
          intro hab
          exact hbne hab.symm
        rw [this, pyCount_filter_ne t a b hbne]
        simp
      rw [hcongr, hsum, pyCount_cons]
      simp only [beq_self_eq_true, if_pos]
      have hsplit := length_filter_split (fun c => c == a) t
      have : pyCount t a = (t.filter (fun c => c == a)).length := rfl
      simp only [List.length_cons]
      omega

/-- The values of `dict(Counter(l))` sum to the length of `l`. -/
theorem pyCounter_sum [DecidableEq α] (l : List α) :
    ((pyCounter l).map Prod.snd).sum = l.length := by
  have h := pyKeysF_count_sum l.length l le_rfl
  simpa [pyCounter, pyKeys, List.map_map, Function.comp] using h

theorem length_filterMap_le_self (f : α → Option β) (l : List α) :
    (l.filterMap f).length ≤ l.length := by
  induction l with
  | nil => simp
  | cons a t ih =>
    rw [List.filterMap_cons]
    cases f a <;> simp <;> omega

theorem length_filterMap_of_all_some (f : α → Option β) (l : List α)
    (h : ∀ a ∈ l, (f a).isSome) : (l.filterMap f).length = l.length := by
  induction l with
  | nil => simp
  | cons a t ih =>
    rw [List.filterMap_cons]
    have ha := h a (List.mem_cons_self _ _)
    cases hfa : f a with
    | none => rw [hfa] at ha; simp at ha
    | some b =>
      simp only [List.length_cons]
      rw [ih]
      intro x hx
      exact h x (List.mem_cons_of_mem _ hx)

theorem pyInsert_mem (le : α → α → Bool) (a x : α) :
    ∀ l : List α, x ∈ pyInsert le a l ↔ x = a ∨ x ∈ l := by
  intro l
  induction l with
  | nil => simp [pyInsert]
  | cons b t ih =>
    simp only [pyInsert]
    split
    · simp only [List.mem_cons, ih]
      tauto
    · simp only [List.mem_cons]

theorem pyInsert_pairwise (le : α → α → Bool)
    (htot : ∀ x y, le x y || le y x)
    (htrans : ∀ x y z, le x y = true → le y z = true → le x z = true)
    (a : α) :
    ∀ l : List α, l.Pairwise (fun x y => le x y = true) →
      (pyInsert le a l).Pairwise (fun x y => le x y = true) := by
  intro l
  induction l with
  | nil =>
    intro _
    simp [pyInsert]
  | cons b t ih =>
    intro hp
    rw [List.pairwise_cons] at hp
    obtain ⟨hb, ht⟩ := hp
    simp only [pyInsert]
    split
    · rename_i hba
      rw [List.pairwise_cons]
      refine ⟨?_, ih ht⟩
      intro x hx
      rw [pyInsert_mem] at hx
      rcases hx with rfl | hx
      · exact hba
      · exact hb x hx
    · rename_i hba
      have hab : le a b = true := by
        have := htot a b
        rcases Bool.or_eq_true_iff.mp this with h | h
        · exact h
        · exact absurd h hba
      rw [List.pairwise_cons]
      constructor
      · intro x hx
        rcases List.mem_cons.mp hx with rfl | hx
        · exact hab
        · exact htrans a b x hab (hb x hx)
      · rw [List.pairwise_cons]
        exact ⟨hb, ht⟩

theorem pySort_pairwise_aux (le : α → α → Bool)
    (htot : ∀ x y, le x y || le y x)
    (htrans : ∀ x y z, le x y = true → le y z = true → le x z = true) :
    ∀ (l acc : List α), acc.Pairwise (fun x y => le x y = true) →
      (l.foldl (fun acc a => pyInsert le a acc) acc).Pairwise
        (fun x y => le x y = true) := by
  intro l
  induction l with
  | nil => intro acc h; simpa using h
  | cons a t ih =>
    intro acc h
    simp only [List.foldl_cons]
    exact ih _ (pyInsert_pairwise le htot htrans a acc h)

/-- The stable sort produces a list ordered by its comparator whenever the
comparator is total and transitive. -/
theorem pySort_pairwise (le : α → α → Bool)
    (htot : ∀ x y, le x y || le y x)
    (htrans : ∀ x y z, le x y = true → le y z = true → le x z = true)
    (l : List α) :
    (pySort le l).Pairwise (fun x y => le x y = true) :=
  pySort_pairwise_aux le htot htrans l [] List.Pairwise.nil

theorem parseFacet_even :
    ∀ l : List JVal, l.length % 2 = 0 →
      parseFacet l = .ok (specFacetPairs l) ∧
      (specFacetPairs l).length = l.length / 2 := by
  intro l
  induction l using parseFacet.induct with
  | case1 => simp [parseFacet, specFacetPairs]
  | case2 a =>
    intro h
    simp at h
  | case3 a b rest ih =>
    intro h
    have hrest : rest.length % 2 = 0 := by
      simp only [List.length_cons] at h
      omega
    obtain ⟨h1, h2⟩ := ih hrest
    constructor
    · simp only [parseFacet, h1, Except.map]
      rfl
    · simp only [specFacetPairs, List.length_cons, h2]
      omega

theorem halCoAuthors_mem (name : String) (docs : List HalDoc) (a : String) :
    a ∈ halCoAuthors name docs ↔
      ∃ d ∈ docs, truthySL d.authFullName_s = true ∧
        a ∈ slToList d.authFullName_s ∧ pyLower a ≠ pyLower name := by
  simp only [halCoAuthors, List.mem_flatten, List.mem_map]
  constructor
  · rintro ⟨l, ⟨d, hd, rfl⟩, hal⟩
    by_cases ht : truthySL d.authFullName_s = true
    · rw [if_pos ht] at hal
      rw [List.mem_filter] at hal
      refine ⟨d, hd, ht, hal.1, ?_⟩
      have := hal.2
      simpa using this
    · rw [if_neg ht] at hal
      simp at hal
  · rintro ⟨d, hd, ht, hmem, hne⟩
    refine ⟨(slToList d.authFullName_s).filter
      (fun a => !(pyLower a == pyLower name)), ⟨d, hd, by rw [if_pos ht]⟩, ?_⟩
    rw [List.mem_filter]
    exact ⟨hmem, by simpa using hne⟩

theorem dblpEntryCo_eq_some (r : String) (e : JEntry) (a : String) :
    dblpEntryCo r e = some a ↔
      e = .jstr a ∧ a ≠ "" ∧ stripAllLower a ≠ r := by
  cases e with
  | jstr s =>
    simp only [dblpEntryCo]
    split
    · rename_i hcond
      simp only [Bool.and_eq_true, Bool.not_eq_true', beq_eq_false_iff_ne, ne_eq] at hcond
      constructor
      · rintro h
        injection h with h
        subst h
        exact ⟨rfl, hcond.1, hcond.2⟩
      · rintro ⟨h, _, _⟩
        injection h with h
        rw [h]
    · rename_i hcond
      simp only [Bool.and_eq_true, Bool.not_eq_true', beq_eq_false_iff_ne, ne_eq,
        not_and] at hcond
      constructor
      · rintro h
        cases h
      · rintro ⟨h, ha, hr⟩
        injection h with h
        subst h
        exact absurd (hcond ha) (by simp [hr])
  | jobj t =>
    simp [dblpEntryCo]

theorem dblpCoAuthors_mem (name : String) (hits : List DblpHit) (a : String) :
    a ∈ dblpCoAuthors name hits ↔
      ∃ h ∈ hits, JEntry.jstr a ∈ authorsToList h.authors ∧
        a ≠ "" ∧ stripAllLower a ≠ stripAllLower name := by
  simp only [dblpCoAuthors, List.mem_flatten, List.mem_map]
  constructor
  · rintro ⟨l, ⟨h, hh, rfl⟩, hal⟩
    rw [List.mem_filterMap] at hal
    obtain ⟨e, he, heq⟩ := hal
    rw [dblpEntryCo_eq_some] at heq
    obtain ⟨rfl, ha, hr⟩ := heq
    exact ⟨h, hh, he, ha, hr⟩
  · rintro ⟨h, hh, he, ha, hr⟩
    refine ⟨(authorsToList h.authors).filterMap (dblpEntryCo (stripAllLower name)),
      ⟨h, hh, rfl⟩, ?_⟩
    rw [List.mem_filterMap]
    exact ⟨.jstr a, he, by rw [dblpEntryCo_eq_some]; exact ⟨rfl, ha, hr⟩⟩

-- ## Claims

/-- C5 (code bug): the year-range clause is built whenever a truthy bound is
given, but the assignment of the joined `fq` parameter sits inside the
`if keyword:` block (`hal.py` line 42), so a year-only request sends *no*
filter-query clause at all.  With a keyword, the clauses are joined with
logical AND as the claim states. -/
theorem C5_fq_only_with_keyword :
    (buildHalParams ("X") (some 2020) (some 2021) none).fq = none ∧
    (buildHalParams ("X") (some 2020) none none).fq = none ∧
    (buildHalParams ("X") none none (some ("ml"))).fq = some ("keyword_s:\"ml\"") ∧
    (buildHalParams ("X") (some 2020) (some 2021) (some ("ml"))).fq =
      some ("producedDateY_i:[2020 TO 2021] AND keyword_s:\"ml\"") ∧
    (buildHalParams ("X") (some 2020) none (some ("ml"))).fq =
      some ("producedDateY_i:[2020 TO *] AND keyword_s:\"ml\"") := by
  exact ⟨by decide, by decide, by decide, by decide, by decide⟩

/-- C6 counterexample: a record whose year field is present with value `0` has
a known year lying strictly below `start_year = 2020`, so the claim says it is
dropped; the year filter keeps it, because Python's `if start_year and y`
treats the year `0` as falsy. -/
theorem C6_counterexample :
    halFilter (some 2020) none none [⟨none, some 0, none, none, none, none⟩] =
      [⟨none, some 0, none, none, none, none⟩] ∧
    (some (0 : Int)).isSome = true ∧ (0 : Int) < 2020 := by
  exact ⟨by decide, by decide, by decide⟩

/-- C6 amended: a record is dropped by the year filter iff some bound is
truthy (present and non-zero), the record year is truthy, and the year lies
strictly beyond that bound; records with absent *or zero* year are never
dropped, and the boundary years themselves are kept. -/
theorem C6_amended :
    (∀ sy ey y : Option Int,
       halKeepYear sy ey y = false ↔
         (truthyInt sy = true ∧ truthyInt y = true ∧ y.getD 0 < sy.getD 0) ∨
         (truthyInt ey = true ∧ truthyInt y = true ∧ ey.getD 0 < y.getD 0)) ∧
    (∀ sy ey : Option Int, halKeepYear sy ey none = true) ∧
    (∀ sy ey : Option Int, halKeepYear sy ey (some 0) = true) ∧
    (∀ s e : Int, s ≠ 0 → e ≠ 0 → s ≤ e →
       halKeepYear (some s) (some e) (some s) = true ∧
       halKeepYear (some s) (some e) (some e) = true ∧
       (s - 1 ≠ 0 → halKeepYear (some s) (some e) (some (s - 1)) = false) ∧
       (e + 1 ≠ 0 → halKeepYear (some s) (some e) (some (e + 1)) = false)) := by
  refine ⟨?_, ?_, ?_, ?_⟩
  · intro sy ey y
    rcases sy with _ | s <;> rcases ey with _ | e <;> rcases y with _ | yv <;>
      (simp [halKeepYear, truthyInt, decide_eq_true_eq, beq_iff_eq]; try omega)
  · intro sy ey
    simp [halKeepYear, truthyInt]
  · intro sy ey
    simp [halKeepYear, truthyInt]
  · intro s e hs he hse
    refine ⟨?_, ?_, ?_, ?_⟩
    · simp [halKeepYear, truthyInt, decide_eq_true_eq, beq_iff_eq]
      omega
    · simp [halKeepYear, truthyInt, decide_eq_true_eq, beq_iff_eq]
      omega
    · intro hs1
      simp [halKeepYear, truthyInt, decide_eq_true_eq, beq_iff_eq]
      omega
    · intro he1
      simp [halKeepYear, truthyInt, decide_eq_true_eq, beq_iff_eq]
      omega

/-- C6 witness: the amended filter at concrete bounds 2020-2021 keeps the
boundary years and drops the years just outside. -/
theorem C6_witness :
    halKeepYear (some 2020) (some 2021) (some 2020) = true ∧
    halKeepYear (some 2020) (some 2021) (some 2021) = true ∧
    halKeepYear (some 2020) (some 2021) (some (2020 - 1)) = false ∧
    halKeepYear (some 2020) (some 2021) (some (2021 + 1)) = false := by
  obtain ⟨h1, h2, h3, h4⟩ :=
    C6_amended.2.2.2 2020 2021 (by decide) (by decide) (by decide)
  exact ⟨h1, h2, h3 (by decide), h4 (by decide)⟩

/-- C7 counterexample: on an upstream failure the project and lab-wide
endpoints return an error value whose source component is `none` — the Python
dicts at `hal.py` lines 191 and 270 contain no `source` entry —, refuting the
claim that every lookup kind's error object carries the failing source. -/
theorem C7_counterexample :
    get_project_stats (.error ("timeout")) = .err ("timeout") none ∧
    get_listic_stats (.error ("timeout")) = .err ("timeout") none := by
  exact ⟨rfl, rfl⟩

/-- C7 amended: every upstream failure is caught and converted to the
endpoint's error value carrying the cause string; the two person lookups also
carry the failing source, while the project and lab-wide error objects carry
only the cause. -/
theorem C7_amended :
    ∀ (e name : String) (sy ey : Option Int) (kw : Option String),
      get_hal_stats name sy ey kw (.error e) = .err e (some ("HAL")) ∧
      get_dblp_stats name (.error e) = .err e (some ("DBLP")) ∧
      get_project_stats (.error e) = .err e none ∧
      get_listic_stats (.error e) = .err e none := by
  intro e name sy ey kw
  exact ⟨rfl, rfl, rfl, rfl⟩

/-- C1 counterexample: the upstream HAL call succeeds, local filtering leaves
zero records, and the engine returns the successful empty statistics object of
`hal.py` line 76 — whose `found` entry is `True`, not `False` as the claim
states. -/
theorem C1_counterexample :
    get_hal_stats ("X") (some 2030) (some 2031) none
      (.ok [⟨none, some 2000, none, none, none, none⟩]) =
      .ok ⟨true, "HAL", some 0, 0, [], [], [], [], [], []⟩ ∧
    (⟨true, "HAL", some 0, 0, [], [], [], [], [], []⟩ : HalStats).found ≠ false := by
  exact ⟨by decide, by decide⟩

/-- C1 amended: when the upstream call succeeds and local filtering leaves
zero records, the HAL engine returns a successful empty statistics object —
never an error — but with `found = true` (and a `count = 0` entry); DBLP,
which does no local filtering, returns `found = false` with only `source` and
`count = 0` entries on an empty raw hit list.  `found` is `true` in every
statistics object either engine produces, so `found = false` occurs only in
DBLP's zero-hit object and never on upstream failure, which yields the
distinct error variant. -/
theorem C1_amended :
    (∀ (name : String) (sy ey : Option Int) (kw : Option String) (docs : List HalDoc),
       halFilter sy ey kw docs = [] →
       get_hal_stats name sy ey kw (.ok docs) =
         .ok ⟨true, "HAL", some 0, 0, [], [], [], [], [], []⟩) ∧
    (∀ name : String, get_dblp_stats name (.ok []) = .notFound false "DBLP" 0) ∧
    (∀ (name : String) (sy ey : Option Int) (kw : Option String) (docs : List HalDoc)
       (stats : HalStats), get_hal_stats name sy ey kw (.ok docs) = .ok stats →
         stats.found = true) ∧
    (∀ (name : String) (hits : List DblpHit) (stats : DblpStats),
       get_dblp_stats name (.ok hits) = .ok stats → stats.found = true) ∧
    (∀ (name e : String) (sy ey : Option Int) (kw : Option String),
       get_hal_stats name sy ey kw (.error e) = .err e (some ("HAL")) ∧
       get_dblp_stats name (.error e) = .err e (some ("DBLP"))) := by
  refine ⟨?_, ?_, ?_, ?_, ?_⟩
  · intro name sy ey kw docs h
    simp [get_hal_stats, h]
  · intro name
    rfl
  · intro name sy ey kw docs stats h
    simp only [get_hal_stats] at h
    split at h
    · injection h with h
      subst h
      rfl
    · injection h with h
      subst h
      rfl
  · intro name hits stats h
    simp only [get_dblp_stats] at h
    split at h
    · simp at h
    · split at h
      · simp at h
      · injection h with h
        subst h
        rfl
  · intro name e sy ey kw
    exact ⟨rfl, rfl⟩

/-- C1 witness: ten raw records all dated outside the 2030-2031 window filter
down to the empty set, and the HAL call returns the successful empty
statistics object. -/
theorem C1_witness :
    get_hal_stats ("Ada") (some 2030) (some 2031) none
      (.ok (List.replicate 10 ⟨none, some 2005, none, none, none, none⟩)) =
      .ok ⟨true, "HAL", some 0, 0, [], [], [], [], [], []⟩ :=
  C1_amended.1 ("Ada") (some 2030) (some 2031) none
    (List.replicate 10 ⟨none, some 2005, none, none, none, none⟩) (by decide)

/-- Modelled from the spec: the whitespace-collapsed, case-insensitive key
under which the claim states that self-exclusion is decided. -/
def wsCollapseLowerSpec (s : String) : String := pyLower (pyCollapseWS s)

/-- C2 counterexample: the subject name and the record's sole author are equal
under the whitespace-collapsed case-insensitive comparison, so the claim says
the author is excluded; the HAL aggregator compares the *raw* subject name
with `lower()` only (`hal.py` lines 85 and 108), so the author is tallied and
appears in `top_collaborators`. -/
theorem C2_counterexample :
    wsCollapseLowerSpec ("John  Smith") = wsCollapseLowerSpec ("John Smith") ∧
    halCoAuthors ("John  Smith")
      [⟨none, none, none, none, some (.scalar ("John Smith")), none⟩] =
      [("John Smith" : String)] ∧
    pyMostCommon 10 (halCoAuthors ("John  Smith")
      [⟨none, none, none, none, some (.scalar ("John Smith")), none⟩]) =
      [("John Smith", 1)] := by
  exact ⟨by decide, by decide, by decide⟩

/-- C2 amended: the exclusion comparisons differ per source and neither is the
whitespace-collapsed comparison.  HAL drops an extracted author iff its
lowercase form equals the lowercase *raw* subject name (no whitespace
normalisation); DBLP drops a (non-empty, string-shaped) author entry iff its
whitespace-*removed* lowercase form equals the subject's.  A record whose sole
author matches under the respective comparison contributes zero entries, and
`top_collaborators` is built exactly from the surviving occurrences. -/
theorem C2_amended :
    (∀ (name : String) (docs : List HalDoc) (a : String),
       a ∈ halCoAuthors name docs ↔
         ∃ d ∈ docs, truthySL d.authFullName_s = true ∧
           a ∈ slToList d.authFullName_s ∧ pyLower a ≠ pyLower name) ∧
    (∀ (name : String) (hits : List DblpHit) (a : String),
       a ∈ dblpCoAuthors name hits ↔
         ∃ h ∈ hits, JEntry.jstr a ∈ authorsToList h.authors ∧
           a ≠ "" ∧ stripAllLower a ≠ stripAllLower name) ∧
    (∀ (name : String) (d : HalDoc),
       (∀ a ∈ slToList d.authFullName_s, pyLower a = pyLower name) →
       halCoAuthors name [d] = []) ∧
    (∀ (name : String) (h : DblpHit),
       (∀ a : String, JEntry.jstr a ∈ authorsToList h.authors →
          stripAllLower a = stripAllLower name) →
       dblpCoAuthors name [h] = []) ∧
    (∀ (name : String) (sy ey : Option Int) (kw : Option String) (docs : List HalDoc)
       (stats : HalStats), get_hal_stats name sy ey kw (.ok docs) = .ok stats →
       stats.top_collaborators =
         pyMostCommon 10 (halCoAuthors name (halFilter sy ey kw docs))) := by
  refine ⟨halCoAuthors_mem, dblpCoAuthors_mem, ?_, ?_, ?_⟩
  · intro name d h
    rw [List.eq_nil_iff_forall_not_mem]
    intro a ha
    rw [halCoAuthors_mem] at ha
    obtain ⟨d', hd', _, hmem, hne⟩ := ha
    rcases List.mem_singleton.mp hd' with rfl
    exact hne (h a hmem)
  · intro name hh h
    rw [List.eq_nil_iff_forall_not_mem]
    intro a ha
    rw [dblpCoAuthors_mem] at ha
    obtain ⟨h', hh', hmem, _, hne⟩ := ha
    rcases List.mem_singleton.mp hh' with rfl
    exact hne (h a hmem)
  · intro name sy ey kw docs stats h
    simp only [get_hal_stats] at h
    split at h
    · rename_i hemp
      rw [List.isEmpty_iff] at hemp
      injection h with h
      subst h
      rw [hemp]
      rfl
    · injection h with h
      subst h
      rfl

/-- C2 witness: a record whose two author spellings both lowercase to the
subject's lowercased raw name contributes no collaborator entries. -/
theorem C2_witness :
    halCoAuthors ("Ann") [⟨none, none, none, none,
      some (.strlist [("ANN" : String), ("ann" : String)]), none⟩] = [] :=
  C2_amended.2.2.1 ("Ann")
    ⟨none, none, none, none, some (.strlist [("ANN" : String), ("ann" : String)]), none⟩
    (by decide)

/-- Modelled from the spec: sorting a HAL doc list by year descending with a
missing year treated as 0 — the ordering the claim asserts the HAL aggregator
applies before taking the first five records (the source applies no local
sort). -/
def specHalYearDescSort (docs : List HalDoc) : List HalDoc :=
  pySort (fun a b =>
    decide (b.producedDateY_i.getD 0 ≤ a.producedDateY_i.getD 0)) docs

/-- C3 counterexample: two filtered records arriving in ascending year order
are returned by the HAL aggregator as `recent_publications` in that same
order (`hal.py` line 133 takes `docs[:5]` without sorting), whereas the
year-descending order demanded by the claim would list the 2020 record
first. -/
theorem C3_counterexample :
    get_hal_stats ("X") none none none
      (.ok [⟨some ("A"), some 2000, none, none, none, none⟩,
            ⟨some ("B"), some 2020, none, none, none, none⟩]) =
      .ok ⟨true, "HAL", none, 2, [(2000, 1), (2020, 1)], [], [], [], [],
        [⟨some ("A"), some 2000, none, none, none, none⟩,
         ⟨some ("B"), some 2020, none, none, none, none⟩]⟩ ∧
    (specHalYearDescSort
      [⟨some ("A"), some 2000, none, none, none, none⟩,
       ⟨some ("B"), some 2020, none, none, none, none⟩]).take 5 =
      [⟨some ("B"), some 2020, none, none, none, none⟩,
       ⟨some ("A"), some 2000, none, none, none, none⟩] ∧
    (⟨some ("A"), some 2000, none, none, none, none⟩ : HalDoc) ≠
      ⟨some ("B"), some 2020, none, none, none, none⟩ := by
  exact ⟨by decide, by decide, by decide⟩

/-- C3 amended: DBLP sorts the full cleaned record set by year descending
(missing year as 0, stably) and takes the first five, so its
`recent_publications` are year-descending; HAL returns the first five
filtered records in upstream response order with no local sort (the request
asks the API for year-descending order, but nothing is re-sorted locally). -/
theorem C3_amended :
    (∀ (name : String) (sy ey : Option Int) (kw : Option String) (docs : List HalDoc)
       (stats : HalStats), get_hal_stats name sy ey kw (.ok docs) = .ok stats →
         stats.recent_publications = (halFilter sy ey kw docs).take 5) ∧
    (∀ (name : String) (hits : List DblpHit) (cleaned : List DblpCleaned)
       (stats : DblpStats), hits.mapM cleanHit = .ok cleaned →
       get_dblp_stats name (.ok hits) = .ok stats →
         stats.recent_publications = (pySort dblpRecLe cleaned).take 5 ∧
         stats.recent_publications.Pairwise (fun a b => dblpSortKey b ≤ dblpSortKey a)) := by
  constructor
  · intro name sy ey kw docs stats h
    simp only [get_hal_stats] at h
    split at h
    · rename_i hemp
      rw [List.isEmpty_iff] at hemp
      injection h with h
      subst h
      rw [hemp]
      rfl
    · injection h with h
      subst h
      rfl
  · intro name hits cleaned stats hm h
    simp only [get_dblp_stats] at h
    split at h
    · simp at h
    · rw [hm] at h
      simp only [] at h
      injection h with h
      subst h
      constructor
      · rfl
      · have htot : ∀ x y, dblpRecLe x y || dblpRecLe y x := by
          intro x y
          simp only [dblpRecLe, Bool.or_eq_true, decide_eq_true_eq]
          omega
        have htrans : ∀ x y z, dblpRecLe x y = true → dblpRecLe y z = true →
            dblpRecLe x z = true := by
          intro x y z hxy hyz
          simp only [dblpRecLe, decide_eq_true_eq] at hxy hyz ⊢
          omega
        have hp := pySort_pairwise dblpRecLe htot htrans cleaned
        have hp2 : (pySort dblpRecLe cleaned).Pairwise
            (fun a b => dblpSortKey b ≤ dblpSortKey a) := by
          refine hp.imp ?_
          intro a b hab
          simpa [dblpRecLe, decide_eq_true_eq] using hab
        exact List.Pairwise.sublist (List.take_sublist 5 _) hp2

/-- C3 witness: two DBLP hits arriving year-ascending are returned
year-descending after the local sort, and the result is pairwise ordered. -/
theorem C3_witness :
    ([⟨none, some 2020, none, none⟩, ⟨none, some 2000, none, none⟩] : List DblpCleaned) =
      (pySort dblpRecLe
        [⟨none, some 2000, none, none⟩, ⟨none, some 2020, none, none⟩]).take 5 ∧
    ([⟨none, some 2020, none, none⟩, ⟨none, some 2000, none, none⟩] : List DblpCleaned).Pairwise
      (fun a b => dblpSortKey b ≤ dblpSortKey a) :=
  C3_amended.2 ("X")
    [⟨.missing, some 2000, none, none, none, none⟩,
     ⟨.missing, some 2020, none, none, none, none⟩]
    [⟨none, some 2000, none, none⟩, ⟨none, some 2020, none, none⟩]
    ⟨true, "DBLP", 2, [(2000, 1), (2020, 1)], [], [], [],
      [⟨none, some 2020, none, none⟩, ⟨none, some 2000, none, none⟩]⟩
    rfl (by decide)

/-- C4 counterexample: a structured author object *inside an author list* is
skipped by the extraction loop (`dblp.py` line 57 admits only `str` entries),
so its `text` field `Alice` — which is not self-excluded against subject
`Bob` — never becomes an author name: the collaborator tally stays empty. -/
theorem C4_counterexample :
    dblpCoAuthors ("Bob")
      [⟨.jlist [.jobj (some ("Alice"))], none, none, none, none, none⟩] = [] ∧
    stripAllLower ("Alice") ≠ stripAllLower ("Bob") ∧
    get_dblp_stats ("Bob")
      (.ok [⟨.jlist [.jobj (some ("Alice"))], none, none, none, none, none⟩]) =
      .ok ⟨true, "DBLP", 1, [], [], [], [], [⟨none, none, none, none⟩]⟩ := by
  exact ⟨by decide, by decide, by decide⟩

/-- C4 amended: the `text`-field extraction (default empty string) applies
exactly when the author field itself is a single structured object — the
extracted text then flows into the collaborator tally like a bare string; a
structured object occurring as an *element* of an author list is skipped
entirely during author-name extraction. -/
theorem C4_amended :
    (∀ t : Option String, authorsToList (.jobj t) = [.jstr (t.getD "")]) ∧
    (∀ l : List JEntry, authorsToList (.jlist l) = l) ∧
    (∀ (r : String) (t : Option String), dblpEntryCo r (.jobj t) = none) ∧
    (∀ (name s : String), s ≠ "" → stripAllLower s ≠ stripAllLower name →
       dblpCoAuthors name [⟨.jobj (some s), none, none, none, none, none⟩] = [s]) := by
  refine ⟨fun t => rfl, fun l => rfl, fun r t => rfl, ?_⟩
  intro name s hs hr
  have h1 : (s == "") = false := by simpa using hs
  have h2 : (stripAllLower s == stripAllLower name) = false := by simpa using hr
  simp [dblpCoAuthors, authorsToList, dblpEntryCo, h1, h2]

/-- C4 witness: a single structured author object with text `Alice` is
extracted and tallied for subject `Bob`. -/
theorem C4_witness :
    dblpCoAuthors ("Bob")
      [⟨.jobj (some ("Alice")), none, none, none, none, none⟩] = [("Alice" : String)] :=
  C4_amended.2.2.2 ("Bob") ("Alice") (by decide) (by decide)

/-- The record year is present exactly when the truthiness test passes, for
records whose year field survives the truthiness test. -/
theorem truthyInt_isSome (o : Option Int) (h : truthyInt o = true) : o.isSome := by
  cases o with
  | none => simp [truthyInt] at h
  | some n => rfl

/-- C9 counterexample: a record whose year field is present with value `0` has
a known year, yet contributes nothing to `years_distribution` (Python's
`if d.get(...)` treats `0` as falsy, `hal.py` line 89), so on a one-record set
the distribution sums to `0` while `total_publications = 1`, refuting the
claimed equality under all-years-known. -/
theorem C9_counterexample :
    get_hal_stats ("X") none none none
      (.ok [⟨none, some 0, none, none, none, none⟩]) =
      .ok ⟨true, "HAL", none, 1, [], [], [], [], [],
        [⟨none, some 0, none, none, none, none⟩]⟩ ∧
    (some (0 : Int)).isSome = true ∧
    (([] : List (Int × Nat)).map Prod.snd).sum ≠ 1 := by
  exact ⟨by decide, by decide, by decide⟩

/-- C9 amended: in both aggregators the values of `years_distribution` always
sum to at most `total_publications`; equality holds in HAL when every filtered
record has a truthy (present and non-zero) year, and in DBLP when every hit
has a present year (DBLP years being non-empty decimal strings, presence is
what Python's truthiness tests there). -/
theorem C9_amended :
    (∀ (name : String) (sy ey : Option Int) (kw : Option String) (docs : List HalDoc)
       (stats : HalStats), get_hal_stats name sy ey kw (.ok docs) = .ok stats →
       (stats.years_distribution.map Prod.snd).sum ≤ stats.total_publications ∧
       ((∀ d ∈ halFilter sy ey kw docs, truthyInt d.producedDateY_i = true) →
         (stats.years_distribution.map Prod.snd).sum = stats.total_publications)) ∧
    (∀ (name : String) (hits : List DblpHit) (stats : DblpStats),
       get_dblp_stats name (.ok hits) = .ok stats →
       (stats.years_distribution.map Prod.snd).sum ≤ stats.total_publications ∧
       ((∀ h ∈ hits, h.year.isSome) →
         (stats.years_distribution.map Prod.snd).sum = stats.total_publications)) := by
  constructor
  · intro name sy ey kw docs stats h
    simp only [get_hal_stats] at h
    split at h
    · injection h with h
      subst h
      exact ⟨by decide, fun _ => by decide⟩
    · injection h with h
      subst h
      constructor
      · rw [pyCounter_sum]
        exact length_filterMap_le_self _ _
      · intro hall
        rw [pyCounter_sum]
        apply length_filterMap_of_all_some
        intro d hd
        have ht := hall d hd
        rw [if_pos ht]
        exact truthyInt_isSome _ ht
  · intro name hits stats h
    simp only [get_dblp_stats] at h
    split at h
    · simp at h
    · split at h
      · simp at h
      · injection h with h
        subst h
        constructor
        · rw [pyCounter_sum]
          exact length_filterMap_le_self _ _
        · intro hall
          rw [pyCounter_sum]
          exact length_filterMap_of_all_some _ _ hall

/-- C9 witness: a one-record set with a truthy year has its distribution
summing exactly to the publication total. -/
theorem C9_witness :
    (([(2021, 1)] : List (Int × Nat)).map Prod.snd).sum ≤ 1 ∧
    (([(2021, 1)] : List (Int × Nat)).map Prod.snd).sum = 1 := by
  have h := C9_amended.1 ("X") none none none
    [⟨none, some 2021, none, none, none, none⟩]
    ⟨true, "HAL", none, 1, [(2021, 1)], [], [], [], [],
      [⟨none, some 2021, none, none, none, none⟩]⟩ (by decide)
  exact ⟨h.1, h.2 (by decide)⟩

/-- C8 confirmed: whenever the lab-wide call returns statistics, the
`structures` facet equals the parsed upstream entries filtered by the
exclusion rule — an entry is dropped iff its uppercased name contains
`LISTIC` or `LABORATOIRE D\x27INFORMATIQUE` — and the survivors form an
order-preserving sublist of the parsed upstream sequence. -/
theorem C8_structures :
    ∀ (fd : ListicFetch) (stats : LabStats),
      get_listic_stats (.ok fd) = .ok stats →
      ∃ ps, parseFacet fd.structName_s = .ok ps ∧
        stats.structures = ps.filter structKeep ∧
        stats.structures.Sublist ps ∧
        (∀ p, p ∈ stats.structures ↔ p ∈ ps ∧
          strContains (pyUpper p.name) ("LISTIC") = false ∧
          strContains (pyUpper p.name) ("LABORATOIRE D\x27INFORMATIQUE") = false) := by
  intro fd stats h
  simp only [get_listic_stats] at h
  split at h
  · simp at h
  · rename_i s hb
    injection h with h
    subst h
    unfold listicBody at hb
    simp only [bind, Except.bind] at hb
    split at hb
    · simp at hb
    · split at hb
      · simp at hb
      · split at hb
        · simp at hb
        · split at hb
          · simp at hb
          · split at hb
            · simp at hb
            · split at hb
              · simp at hb
              · split at hb
                · simp at hb
                · rename_i ps h7
                  injection hb with hb
                  subst hb
                  refine ⟨ps, h7, rfl, List.filter_sublist _, ?_⟩
                  intro p
                  simp [List.mem_filter, structKeep]

/-- C8 witness: on a concrete structures facet, the entries named `LISTIC` and
`Laboratoire d\x27Informatique, Institut X` are removed while `LIG` survives in
place. -/
theorem C8_witness :
    parseFacet [JVal.str ("LISTIC"), JVal.num 12,
        JVal.str ("Laboratoire d\x27Informatique, Institut X"), JVal.num 7,
        JVal.str ("LIG"), JVal.num 5] =
      .ok [⟨"LISTIC", JVal.num 12⟩,
           ⟨"Laboratoire d\x27Informatique, Institut X", JVal.num 7⟩,
           ⟨"LIG", JVal.num 5⟩] ∧
    ([⟨"LIG", JVal.num 5⟩] : List FacetPair).Sublist
      [⟨"LISTIC", JVal.num 12⟩,
       ⟨"Laboratoire d\x27Informatique, Institut X", JVal.num 7⟩,
       ⟨"LIG", JVal.num 5⟩] ∧
    (⟨"LIG", JVal.num 5⟩ : FacetPair) ∈ ([⟨"LIG", JVal.num 5⟩] : List FacetPair) ∧
    ¬ (⟨"LISTIC", JVal.num 12⟩ : FacetPair) ∈ ([⟨"LIG", JVal.num 5⟩] : List FacetPair) := by
  obtain ⟨ps, h1, h2, h3, h4⟩ := C8_structures
    ⟨[.str ("2023"), .num 10, .str ("2022"), .num 5], [], [], [], [], [],
     [.str ("LISTIC"), .num 12, .str ("Laboratoire d\x27Informatique, Institut X"), .num 7,
      .str ("LIG"), .num 5], 3⟩
    ⟨[⟨"2022", .num 5⟩, ⟨"2023", .num 10⟩], [], [], [], [], [], [⟨"LIG", .num 5⟩], 3⟩
    (by decide)
  have hcalc : parseFacet [JVal.str ("LISTIC"), JVal.num 12,
      JVal.str ("Laboratoire d\x27Informatique, Institut X"), JVal.num 7,
      JVal.str ("LIG"), JVal.num 5] =
      .ok [⟨"LISTIC", JVal.num 12⟩,
           ⟨"Laboratoire d\x27Informatique, Institut X", JVal.num 7⟩,
           ⟨"LIG", JVal.num 5⟩] := rfl
  rw [h1] at hcalc
  injection hcalc with hcalc
  subst hcalc
  refine ⟨h1, h3, ?_, ?_⟩
  · exact (h4 ⟨"LIG", JVal.num 5⟩).2 ⟨by decide, by decide, by decide⟩
  · intro hmem
    have hc := ((h4 ⟨"LISTIC", JVal.num 12⟩).1 hmem).2.1
    exact absurd hc (by decide)

/-- C10 confirmed: on every even-length flat facet list, `parse_facet` returns
the `{name, value}` pairs in upstream order with each name stringified —
exactly half as many entries as the flat list — and on a concrete odd-length
facet list the final `flat_list[i+1]` indexes one position past the end, so
the whole lab-wide call returns the error object instead of facet data. -/
theorem C10_facets :
    (∀ l : List JVal, l.length % 2 = 0 →
       parseFacet l = .ok (specFacetPairs l) ∧
       (specFacetPairs l).length = l.length / 2) ∧
    get_listic_stats (.ok ⟨[.str ("2023"), .num 10, .str ("2022")],
        [], [], [], [], [], [], 3⟩) =
      .err ("list index out of range") none := by
  exact ⟨parseFacet_even, by decide⟩

/-- C10 witness: the spec's own facet-translation example, an even-length
four-element flat list, parses to its two pairs. -/
theorem C10_witness :
    parseFacet [JVal.str ("2020"), JVal.num 5, JVal.str ("2021"), JVal.num 3] =
      .ok (specFacetPairs [JVal.str ("2020"), JVal.num 5, JVal.str ("2021"), JVal.num 3]) ∧
    (specFacetPairs [JVal.str ("2020"), JVal.num 5, JVal.str ("2021"), JVal.num 3]).length =
      ([JVal.str ("2020"), JVal.num 5, JVal.str ("2021"), JVal.num 3] : List JVal).length / 2 :=
  C10_facets.1 [JVal.str ("2020"), JVal.num 5, JVal.str ("2021"), JVal.num 3] (by decide)
